import Mathlib

/-!
# Verification of the PDF annotation extraction engine

A shallow embedding, in Lean 4, of the core of the `pdf-memo-mcp` server:

* `pdf_annotator/core/page_range.py` — the page-range parser;
* `pdf_annotator/core/paths.py`      — the sandboxed path resolver;
* `pdf_annotator/core/bbox.py`       — coordinate conversion, bounding-box
  union and the bounding-box text correlator;
* `pdf_annotator/backends/pypdf2_backend.py` and
  `pdf_annotator/backends/pdfplumber_backend.py` — the two extraction
  backends;
* `pdf_annotator/tools/mcp_tools.py` — the exposed tool operations.

Modelling conventions:

* Python `str` becomes `String`; the handful of Python string methods the
  code uses (`strip`, `lower`, `lstrip`, `split`, `in`, `startswith`,
  `capitalize`, `int(...)`) are embedded as explicit functions below,
  restricted to the ASCII inputs the programs manipulate.
* PDF geometry uses Python `float`s only through `min`, `max`, comparison,
  addition, subtraction and `abs`; we embed the coordinates in an arbitrary
  linearly ordered commutative ring (general theorems hold for `ℚ`, the
  exact model of the float values; concrete witnesses instantiate `ℤ`,
  whose arithmetic the kernel evaluates).
* Filesystem and PDF-library primitives (`os.path.realpath`, `os.path.isfile`,
  `Path.glob`, `PyPDF2.PdfReader`, `pdfplumber` pages, ...) are out of scope
  per the specification; they are modelled as fields of explicit environment
  records (`Fs`, `PdfEnv`, `ToolEnv`), so every embedded function is a pure
  function of its environment.
* Python functions that can raise (`ValueError` from `int`/range checks,
  `IndexError`, backend failures) return `Except String α`; functions whose
  failures are swallowed into `None` return `Option α`.
-/

/-! ## Generic helpers -/

instance {ε α : Type} [DecidableEq ε] [DecidableEq α] : DecidableEq (Except ε α)
  | .ok a, .ok b =>
    decidable_of_iff (a = b) ⟨fun h => by rw [h], fun h => by cases h; rfl⟩
  | .ok _, .error _ => isFalse (fun h => by cases h)
  | .error _, .ok _ => isFalse (fun h => by cases h)
  | .error a, .error b =>
    decidable_of_iff (a = b) ⟨fun h => by rw [h], fun h => by cases h; rfl⟩

/-! ## Python string primitives -/

/-- `str.strip()` on a character list: drop leading and trailing whitespace. -/
def pyStripList (cs : List Char) : List Char :=
  ((cs.dropWhile Char.isWhitespace).reverse.dropWhile Char.isWhitespace).reverse

/-- `str.strip()`. -/
def pyStrip (s : String) : String := ⟨pyStripList s.data⟩

/-- `str.lower()` (ASCII). -/
def pyLower (s : String) : String := ⟨s.data.map Char.toLower⟩

/-- `str.lstrip("/")`: remove every leading `/`. -/
def pyLstripSlash (s : String) : String := ⟨s.data.dropWhile (· = '/')⟩

/-- Python truthiness-based `a or b` on strings. -/
def pyOr (a b : String) : String := if a = "" then b else a

/-- Does the string start with the given character? (`str.startswith`). -/
def startsWithChar (s : String) (c : Char) : Bool :=
  match s.data with
  | [] => false
  | d :: _ => d = c

/-- Is `pre` a (list) prefix of `l`? -/
def listIsPrefix : List Char → List Char → Bool
  | [], _ => true
  | _ :: _, [] => false
  | p :: ps, c :: cs => p = c && listIsPrefix ps cs

/-- `t.startswith(b)` for strings (`b` a prefix of `t`). -/
def strStartsWith (t b : String) : Bool := listIsPrefix b.data t.data

/-- Python `needle in hay` substring test, on character lists. -/
def listIsSubstr (needle : List Char) : List Char → Bool
  | [] => listIsPrefix needle []
  | c :: cs => listIsPrefix needle (c :: cs) || listIsSubstr needle cs

/-- Python `needle in hay` substring test for strings. -/
def strContains (hay needle : String) : Bool := listIsSubstr needle.data hay.data

/-- Decimal digit run to a number; `none` if empty or a non-digit occurs.
Models the digit part of Python `int(...)`. -/
def digitsToNat : List Char → Option Nat
  | [] => none
  | cs =>
    cs.foldl (fun acc c =>
      match acc with
      | none => none
      | some n => if c.isDigit then some (n * 10 + (c.toNat - '0'.toNat)) else none)
      (some 0)

/-- Python `int(s)`: strip whitespace, optional sign, decimal digits;
`none` models the `ValueError` raised on malformed input. -/
def pyInt (s : String) : Option Int :=
  match pyStripList s.data with
  | '+' :: cs => (digitsToNat cs).map Int.ofNat
  | '-' :: cs => (digitsToNat cs).map (fun n => -(n : Int))
  | cs => (digitsToNat cs).map Int.ofNat

/-- Split at the first occurrence of `c` (which must occur):
`s.split(c, 1)` giving the parts before and after. -/
def splitFirstChar : List Char → Char → List Char × List Char
  | [], _ => ([], [])
  | x :: xs, c =>
    if x = c then ([], xs)
    else
      let p := splitFirstChar xs c
      (x :: p.1, p.2)

/-- `str.capitalize()`: first character uppercased, the rest lowercased. -/
def pyCapitalize (s : String) : String :=
  match s.data with
  | [] => ""
  | c :: cs => ⟨c.toUpper :: cs.map Char.toLower⟩

/-- Python `range(a, b)` as a list of integers. -/
def intRange (a b : Int) : List Int :=
  (List.range (b - a).toNat).map (fun k => a + (k : Int))

/-! ## `core/page_range.py` -/

/-- `parse_page_range(total_pages, page_range)` from `core/page_range.py`.
`Except.error` models the `ValueError` the Python code raises (the spec's
`InvalidRange`); the returned list holds zero-based page indices. -/
def parse_page_range (total_pages : Int) (page_range : Option String) :
    Except String (List Int) :=
  if total_pages ≤ 0 then .ok []
  else
    match page_range with
    | none => .ok (intRange 0 total_pages)
    | some pr0 =>
      let pr := pyLower (pyStrip pr0)
      if pr = "first" then .ok [0]
      else if pr = "last" then .ok [total_pages - 1]
      else if pr.data.contains '-' then
        -- s, e = pr.split("-", 1); s_i = int(s) if s else 1; e_i = int(e) if e else total
        let p := splitFirstChar pr.data '-'
        let s : String := ⟨p.1⟩
        let e : String := ⟨p.2⟩
        match (if s = "" then some 1 else pyInt s) with
        | none => .error ("invalid literal for int() with base 10: " ++ s)
        | some s_i =>
          match (if e = "" then some total_pages else pyInt e) with
          | none => .error ("invalid literal for int() with base 10: " ++ e)
          | some e_i =>
            if s_i < 1 ∨ e_i < 1 ∨ s_i > total_pages then
              .error ("Invalid page range: " ++ pr0)
            else
              .ok (intRange (s_i - 1) (min e_i total_pages))
      else
        match pyInt pr with
        | none => .error ("invalid literal for int() with base 10: " ++ pr)
        | some p =>
          if p < 1 ∨ p > total_pages then
            .error ("Page " ++ toString p ++ " out of range (1-" ++
              toString total_pages ++ ")")
          else
            .ok [p - 1]

/-! ## `core/paths.py` — the path sandbox resolver

The operating-system primitives the module calls are modelled as the fields
of an `Fs` record: `realpath`, `abspath`, `expanduser` are
`os.path.realpath` / `os.path.abspath` / `os.path.expanduser`; `isFile`,
`fsExists`, `size` are `Path.is_file` / `Path.exists` / `Path.stat().st_size`;
`glob d` is the list of entry *names* produced by `Path(d).glob("*.pdf")`,
in iteration order. Paths are POSIX strings. -/

structure Fs where
  realpath : String → String
  abspath : String → String
  expanduser : String → String
  isFile : String → Bool
  fsExists : String → Bool
  size : String → Nat
  glob : String → List String

/-- The process-wide configuration: `SEARCH_DIRECTORIES` and
`MAX_FILE_SIZE` from `core/paths.py`. -/
structure SandboxConfig where
  dirs : List String
  maxFileSize : Nat

/-- `ALLOWED_EXTENSIONS` from `core/paths.py`. -/
def ALLOWED_EXTENSIONS : List String := [".pdf"]

/-- `os.path.join(p, "")`: append a trailing separator unless one is
already present (or `p` is empty). -/
def pyJoinEmpty (p : String) : String :=
  if p = "" then ""
  else if p.data.getLast? = some '/' then p
  else p ++ "/"

/-- Drop the final character: Python `s[:-1]`. -/
def strDropLast (s : String) : String := ⟨s.data.dropLast⟩

/-- `_is_within(base, target)` from `core/paths.py`:
`base = os.path.join(os.path.realpath(base), "")`,
`target = os.path.realpath(target)`, then
`target.startswith(base) or target == base[:-1]`. -/
def _is_within (fs : Fs) (base target : String) : Bool :=
  let b := pyJoinEmpty (fs.realpath base)
  let t := fs.realpath target
  strStartsWith t b || t = strDropLast b

/-- `os.path.join(d, name)` as performed by `Path(d) / name` (POSIX):
an absolute `name` discards `d`. -/
def pyPathJoin (d name : String) : String :=
  if startsWithChar name '/' then name
  else if d.data.getLast? = some '/' then d ++ name
  else d ++ "/" ++ name

/-- Split a character list at `/` separators. -/
def splitOnSlash : List Char → List (List Char)
  | [] => [[]]
  | c :: cs =>
    let r := splitOnSlash cs
    if c = '/' then [] :: r
    else
      match r with
      | [] => [[c]]
      | seg :: rest => (c :: seg) :: rest

/-- `Path(p).parts` restricted to what the resolver inspects: the named
path segments (empty runs between separators and `.` segments are
normalized away by `pathlib`, `..` segments are kept). -/
def pathParts (p : String) : List String :=
  (splitOnSlash p.data).filterMap
    (fun seg => if seg = [] ∨ seg = ['.'] then none else some ⟨seg⟩)

/-- `Path(p).name`: the final path component. -/
def pyBasename (p : String) : String :=
  match (splitOnSlash p.data).getLast? with
  | some seg => ⟨seg⟩
  | none => ""

/-- `Path(p).suffix` of a single name: `.ext` when the name has a dot that
is neither its first nor its last character; last dot wins. -/
def pySuffixOfName (name : String) : String :=
  let rev := name.data.reverse
  let ext := rev.takeWhile (fun c => c ≠ '.')
  match rev.drop ext.length with
  | '.' :: rest => if rest ≠ [] ∧ ext ≠ [] then ⟨'.' :: ext.reverse⟩ else ""
  | _ => ""

/-- `Path(p).suffix`. -/
def pySuffix (p : String) : String := pySuffixOfName (pyBasename p)

/-- The first line of `validate_and_resolve_path`:
`os.path.expanduser(p)` for a `~`-path, else `os.path.abspath(p)`. -/
def pyAbsOf (fs : Fs) (file_path : String) : String :=
  if startsWithChar file_path '~' then fs.expanduser file_path
  else fs.abspath file_path

/-- `validate_and_resolve_path(file_path)` from `core/paths.py`.
Every rejection (outside the sandbox, a `..` segment in the raw input, not
a regular file, wrong extension, oversize) collapses to `none`. -/
def validate_and_resolve_path (cfg : SandboxConfig) (fs : Fs)
    (file_path : String) : Option String :=
  let abs_path := pyAbsOf fs file_path
  let real_path := fs.realpath abs_path
  let is_safe := cfg.dirs.any (fun allowed => _is_within fs allowed real_path)
  if ¬ is_safe ∨ (pathParts file_path).contains ".." then none
  else if ¬ fs.isFile real_path then none
  else if ¬ (ALLOWED_EXTENSIONS.contains (pyLower (pySuffix real_path))) then none
  else if cfg.maxFileSize < fs.size real_path then none
  else some real_path

/-- `os.path.isabs` (POSIX). -/
def pyIsAbs (p : String) : Bool := startsWithChar p '/'

/-- One root of the fuzzy scan inside `find_file`: iterate the `*.pdf`
entries of `d` in glob order; on the first name containing the (lowercased)
query whose full path validates and exists, return it. -/
def fuzzyScan (cfg : SandboxConfig) (fs : Fs) (file_name d : String) :
    List String → Option String
  | [] => none
  | name :: rest =>
    if strContains (pyLower name) (pyLower file_name) then
      match validate_and_resolve_path cfg fs (pyPathJoin d name) with
      | some p => if fs.fsExists p then some p else fuzzyScan cfg fs file_name d rest
      | none => fuzzyScan cfg fs file_name d rest
    else fuzzyScan cfg fs file_name d rest

/-- The per-directory search loop of `find_file`: within each configured
directory, first the exact join, then the fuzzy scan, before moving on. -/
def searchDirs (cfg : SandboxConfig) (fs : Fs) (file_name : String) :
    List String → Option String
  | [] => none
  | d :: rest =>
    match validate_and_resolve_path cfg fs (pyPathJoin d file_name) with
    | some p =>
      if fs.fsExists p then some p
      else
        match fuzzyScan cfg fs file_name d (fs.glob d) with
        | some q => some q
        | none => searchDirs cfg fs file_name rest
    | none =>
      match fuzzyScan cfg fs file_name d (fs.glob d) with
      | some q => some q
      | none => searchDirs cfg fs file_name rest

/-- `find_file(file_name)` from `core/paths.py`. -/
def find_file (cfg : SandboxConfig) (fs : Fs) (file_name : String) :
    Option String :=
  let direct :=
    if pyIsAbs file_name || startsWithChar file_name '~' then
      match validate_and_resolve_path cfg fs file_name with
      | some p => if fs.fsExists p then some p else none
      | none => none
    else none
  match direct with
  | some p => some p
  | none => searchDirs cfg fs file_name cfg.dirs

/-! ## `core/bbox.py` — coordinates, unions, text correlation

Python floats enter the engine only through `min`, `max`, `abs`,
subtraction, addition and comparison, so the coordinate scalar is embedded
as an arbitrary linearly ordered commutative ring `α`; `ℚ` is the intended
(exact) instance, and concrete witnesses use integer-valued coordinates in
`ℤ`, where the kernel can evaluate. -/

variable {α : Type} [LinearOrderedCommRing α]

/-- A `[x0, top, x1, bottom]` bounding box in pdfplumber coordinates
(origin top-left, Y growing downward). -/
structure BBox (α : Type) where
  x0 : α
  top : α
  x1 : α
  bottom : α
deriving DecidableEq, Repr

/-- `pypdf_to_plumber_y(page_height, y_pdf)` from `core/bbox.py`:
the single Y-axis conversion point. -/
def pypdf_to_plumber_y (page_height y_pdf : α) : α := page_height - y_pdf

/-- `union_boxes(boxes)` from `core/bbox.py`: componentwise `min` of
`x0`/`top` and `max` of `x1`/`bottom`. `none` models the `ValueError`
Python `min` raises on an empty sequence. -/
def union_boxes (boxes : List (BBox α)) : Option (BBox α) :=
  match (boxes.map BBox.x0).min?, (boxes.map BBox.top).min?,
        (boxes.map BBox.x1).max?, (boxes.map BBox.bottom).max? with
  | some a, some b, some c, some d => some ⟨a, b, c, d⟩
  | _, _, _, _ => none

/-- One word of the layout backend: its text and its own box. -/
structure Word (α : Type) where
  text : String
  wx0 : α
  wtop : α
  wx1 : α
  wbottom : α
deriving DecidableEq, Repr

/-- `_intersects(bbox, w)` from `core/bbox.py`: the open overlap test. -/
def _intersects (bbox : BBox α) (w : Word α) : Bool :=
  !(decide (w.wx1 ≤ bbox.x0) || decide (w.wx0 ≥ bbox.x1) ||
    decide (w.wbottom ≤ bbox.top) || decide (w.wtop ≥ bbox.bottom))

/-- `_words_in_bbox(bbox, words)` from `core/bbox.py`. -/
def _words_in_bbox (bbox : BBox α) (words : List (Word α)) : List (Word α) :=
  words.filter (_intersects bbox)

/-- The sort key order `(w.top, w.x0)` used by
`inside.sort(key=lambda w: (w.top, w.x0))`. -/
def wordKeyLe (v w : Word α) : Prop :=
  v.wtop < w.wtop ∨ (v.wtop = w.wtop ∧ v.wx0 ≤ w.wx0)

instance : DecidableRel (wordKeyLe (α := α)) := fun v w => by
  unfold wordKeyLe; infer_instance

instance : IsTotal (Word α) wordKeyLe := by
  constructor
  intro v w
  unfold wordKeyLe
  rcases lt_trichotomy v.wtop w.wtop with h | h | h
  · exact Or.inl (Or.inl h)
  · rcases le_total v.wx0 w.wx0 with h2 | h2
    · exact Or.inl (Or.inr ⟨h, h2⟩)
    · exact Or.inr (Or.inr ⟨h.symm, h2⟩)
  · exact Or.inr (Or.inl h)

instance : IsTrans (Word α) wordKeyLe := by
  constructor
  intro a b c hab hbc
  unfold wordKeyLe at *
  rcases hab with h1 | ⟨e1, l1⟩
  · rcases hbc with h2 | ⟨e2, _⟩
    · exact Or.inl (h1.trans h2)
    · exact Or.inl (e2 ▸ h1)
  · rcases hbc with h2 | ⟨e2, l2⟩
    · exact Or.inl (e1 ▸ h2)
    · exact Or.inr ⟨e1.trans e2, l1.trans l2⟩

/-- `inside.sort(key=lambda w: (w.top, w.x0))`: Python `list.sort` is a
stable sort by that key, embedded as a stable insertion sort over
`wordKeyLe`. -/
def sortWords (ws : List (Word α)) : List (Word α) :=
  List.insertionSort wordKeyLe ws

/-- One step of the line-grouping loop in `_text_from_words_grouped`:
append `w` to the last line when its `top` is within `tol` of the last
word of that line, otherwise start a new line. -/
def addLine (tol : α) (lines : List (List (Word α))) (w : Word α) :
    List (List (Word α)) :=
  match lines.getLast? with
  | none => [[w]]
  | some last =>
    match last.getLast? with
    | none => lines.dropLast ++ [[w]]   -- unreachable: lines are never empty
    | some lw =>
      if |w.wtop - lw.wtop| ≤ tol then lines.dropLast ++ [last ++ [w]]
      else lines ++ [[w]]

/-- `_text_from_words_grouped(bbox, words, line_tol=3.0)` from
`core/bbox.py`. -/
def _text_from_words_grouped (bbox : BBox α) (words : List (Word α))
    (line_tol : α := 3) : String :=
  let inside := _words_in_bbox bbox words
  if inside = [] then ""
  else
    let sorted := sortWords inside
    let lines := sorted.foldl (addLine line_tol) []
    let line_texts := lines.map (fun line => String.intercalate " " (line.map Word.text))
    String.intercalate " " ((line_texts.map pyStrip).filter (· ≠ ""))

/-- One pdfplumber page, as far as the engine consumes it: its height, its
`extract_words()` result, its crop primitive and its `extract_text()`
result. `crop b = none` models `within_bbox(b)`/`extract_text()` raising
or returning `None`; `fullText = none` models `extract_text()` returning
`None`. -/
structure PlPage (α : Type) where
  height : α
  words : List (Word α)
  crop : BBox α → Option String
  fullText : Option String

/-- `" ".join(s.strip() for s in text.splitlines() if s.strip())`. -/
def joinStrippedLines (text : String) : String :=
  String.intercalate " " (((text.splitOn "\n").map pyStrip).filter (· ≠ ""))

/-- `extract_text_from_bbox(pl_page, bbox)` from `core/bbox.py`: pad the
box by 1.0 (clamping `x0`/`top` at 0), try the crop-and-reflow primary
strategy, fall back to word grouping over the padded box. -/
def extract_text_from_bbox (pl : PlPage α) (bbox : BBox α) : String :=
  let x0 := max (bbox.x0 - 1) 0
  let top := max (bbox.top - 1) 0
  let x1 := bbox.x1 + 1
  let bottom := bbox.bottom + 1
  let padded : BBox α := ⟨x0, top, x1, bottom⟩
  let fallback := _text_from_words_grouped padded pl.words
  match pl.crop padded with
  | some text => if text = "" then fallback else joinStrippedLines text
  | none => fallback

/-! ## The structural reader's data (`PyPDF2` view)

One raw annotation dictionary, restricted to the keys the engine reads:
`/Subtype`, `/T`, `/Title`, `/Contents`, `/RC`, `/Popup` (its resolved
`/Contents`), `/QuadPoints` and `/Rect`. A missing string key is the
`""` default the code supplies; `popup = none` means no `/Popup` entry;
`quadPoints = none` means `/QuadPoints` is absent (not a list). -/

structure AnnotObj (α : Type) where
  subtype : String := ""
  tField : String := ""
  title : String := ""
  contents : String := ""
  rc : String := ""
  popup : Option String := none
  quadPoints : Option (List α) := none
  rect : List α := []

/-- `_note_from_obj(obj)` from `backends/pdfplumber_backend.py`. -/
def _note_from_obj (o : AnnotObj α) : String :=
  let note := pyOr o.contents (pyOr o.rc "")
  if note = "" then
    match o.popup with
    | some pc => pyOr pc note
    | none => note
  else note

/-- `_get_popup_contents(obj)` from `backends/pypdf2_backend.py`. -/
def _get_popup_contents (o : AnnotObj α) : String :=
  match o.popup with
  | some pc => pyOr pc ""
  | none => ""

/-- One page of the structural reader: `/Annots` if present. -/
structure PyPage (α : Type) where
  annots : Option (List (AnnotObj α))

/-- The metadata values `read_pdf_text` extracts, already defaulted: field
`f` holds `str((pdf.metadata or {}).get(F, ""))` for the matching key. -/
structure PdfMeta where
  title : String := ""
  author : String := ""
  subject : String := ""
  creator : String := ""
  producer : String := ""
  creation_date : String := ""
  mod_date : String := ""
deriving DecidableEq

/-- One opened PDF, as both backends see it: the structural reader's pages
and the layout backend's pages, plus the metadata `read_pdf_text` reports. -/
structure PdfEnv (α : Type) where
  pypages : List (PyPage α)
  plpages : List (PlPage α)
  meta : PdfMeta := {}

/-- Python list indexing `l[i]` (negative indices wrap; out of bounds is
an `IndexError`, modelled as `none`). -/
def pyIndex (l : List γ) (i : Int) : Option γ :=
  if 0 ≤ i then l.get? i.toNat
  else
    let j := (l.length : Int) + i
    if 0 ≤ j then l.get? j.toNat else none

/-! ## `backends/pdfplumber_backend.py` — highlight-with-text extraction -/

/-- The `for i in range(0, len(quads), 8)` loop shape: cut the
`/QuadPoints` list into groups of eight floats; a trailing group shorter
than eight makes the Python loop index out of range. -/
def quadChunks : List α → Except String (List (List α))
  | [] => .ok []
  | q0 :: q1 :: q2 :: q3 :: q4 :: q5 :: q6 :: q7 :: rest =>
    match quadChunks rest with
    | .ok cs => .ok ([q0, q1, q2, q3, q4, q5, q6, q7] :: cs)
    | .error e => .error e
  | _ => .error "IndexError: list index out of range"

/-- One eight-float quad group to a pdfplumber-space box: `min`/`max` of
the four X corners, and `min`/`max` of the four Y corners pushed through
`pypdf_to_plumber_y`. -/
def groupToBox (page_h : α) : List α → BBox α
  | [x1, y1, x2, y2, x3, y3, x4, y4] =>
    { x0 := min (min (min x1 x2) x3) x4
      top := min (min (min (pypdf_to_plumber_y page_h y1) (pypdf_to_plumber_y page_h y2))
        (pypdf_to_plumber_y page_h y3)) (pypdf_to_plumber_y page_h y4)
      x1 := max (max (max x1 x2) x3) x4
      bottom := max (max (max (pypdf_to_plumber_y page_h y1) (pypdf_to_plumber_y page_h y2))
        (pypdf_to_plumber_y page_h y3)) (pypdf_to_plumber_y page_h y4) }
  | _ => ⟨0, 0, 0, 0⟩   -- unreachable: `quadChunks` only yields 8-float groups

/-- The `/Rect` fallback branch: normalize the rectangle corners by
`min`/`max`, then convert the two Y values. Empty result when `/Rect` is
missing or too short. -/
def rectBoxes (page_h : α) (rect : List α) : List (BBox α) :=
  if rect ≠ [] ∧ 4 ≤ rect.length then
    let r0 := rect.getD 0 0
    let r1 := rect.getD 1 0
    let r2 := rect.getD 2 0
    let r3 := rect.getD 3 0
    [{ x0 := min r0 r2
       top := pypdf_to_plumber_y page_h (max r1 r3)
       x1 := max r0 r2
       bottom := pypdf_to_plumber_y page_h (min r1 r3) }]
  else []

/-- The geometry of one highlight: quad groups when `/QuadPoints` is a
list of at least eight floats, else the `/Rect` fallback. -/
def annotBoxes (page_h : α) (o : AnnotObj α) : Except String (List (BBox α)) :=
  match o.quadPoints with
  | some qs =>
    if 8 ≤ qs.length then
      match quadChunks qs with
      | .ok groups => .ok (groups.map (groupToBox page_h))
      | .error e => .error e
    else .ok (rectBoxes page_h o.rect)
  | none => .ok (rectBoxes page_h o.rect)

/-- The merged output record of the highlight extractor
(`HighlightContext` in `core/types.py`). -/
structure HighlightContext (α : Type) where
  page : Int
  author : String
  highlighted_text : String
  note : String
  position : BBox α
deriving DecidableEq

/-- The body of the `for annot in pypdf_page["/Annots"]` loop of
`extract_highlights_with_context`, for one annotation dictionary:
`.ok none` models `continue`. -/
def processAnnot (pl : PlPage α) (page_index : Int) (drop_empty : Bool)
    (o : AnnotObj α) : Except String (Option (HighlightContext α)) :=
  if pyLower (pyLstripSlash o.subtype) ≠ "highlight" then .ok none
  else
    let author := pyOr o.tField (pyOr o.title "")
    let note := _note_from_obj o
    match annotBoxes pl.height o with
    | .error e => .error e
    | .ok bboxes =>
      if bboxes = [] then .ok none
      else
        let spans := bboxes.foldl
          (fun acc bb =>
            let t := extract_text_from_bbox pl bb
            if t = "" then acc else acc ++ [t]) []
        let highlighted := pyStrip (String.intercalate " " spans)
        match union_boxes bboxes with
        | none => .error "ValueError: min() arg is an empty sequence"
        | some u =>
          let item : HighlightContext α :=
            { page := page_index + 1, author := author,
              highlighted_text := highlighted, note := note, position := u }
          if drop_empty ∧ highlighted = "" ∧ note = "" then .ok none
          else .ok (some item)

/-- The annotation loop of `extract_highlights_with_context` over one
page's `/Annots` list. -/
def annotLoop (pl : PlPage α) (page_index : Int) (drop_empty : Bool) :
    List (AnnotObj α) → Except String (List (HighlightContext α))
  | [] => .ok []
  | o :: os =>
    match processAnnot pl page_index drop_empty o with
    | .error e => .error e
    | .ok r =>
      match annotLoop pl page_index drop_empty os with
      | .error e => .error e
      | .ok rest =>
        .ok (match r with
             | some it => it :: rest
             | none => rest)

/-- The page loop of `extract_highlights_with_context`. -/
def hlPageLoop (env : PdfEnv α) (drop_empty : Bool) :
    List Int → Except String (List (HighlightContext α))
  | [] => .ok []
  | i :: rest =>
    match pyIndex env.pypages i, pyIndex env.plpages i with
    | some py, some pl =>
      match py.annots with
      | none => hlPageLoop env drop_empty rest
      | some annots =>
        match annotLoop pl i drop_empty annots with
        | .error e => .error e
        | .ok items =>
          match hlPageLoop env drop_empty rest with
          | .error e => .error e
          | .ok more => .ok (items ++ more)
    | _, _ => .error "IndexError: page index out of range"

/-- `extract_highlights_with_context(pdf_path, page_range, drop_empty)`
from `backends/pdfplumber_backend.py`, given the opened document.
An `Except.error` models the exception the backend logs and re-raises. -/
def extract_highlights_with_context (env : PdfEnv α) (page_range : Option String)
    (drop_empty : Bool := true) : Except String (List (HighlightContext α)) :=
  match parse_page_range (env.plpages.length : Int) page_range with
  | .error e => .error e
  | .ok idxs => hlPageLoop env drop_empty idxs

/-! ## `backends/pypdf2_backend.py` — plain annotation extraction -/

/-- The output record of the plain extractor (`Annotation` in
`core/types.py`; renamed here to avoid a reserved suffix). -/
structure AnnotRecord (α : Type) where
  page : Int
  type : String
  content : String
  author : String
  position : List α
deriving DecidableEq

/-- The body of the annotation loop of the plain extractor
`extract_annotations`, for one annotation dictionary; `none` models
`continue`. -/
def processPlainAnnot (page_index : Int) (include_types : List String)
    (drop_empty : Bool) (o : AnnotObj α) : Option (AnnotRecord α) :=
  let subtype := pyLower (pyLstripSlash o.subtype)
  if include_types ≠ [] ∧ subtype ∉ include_types then none
  else
    let content := pyOr o.contents (pyOr o.rc (pyOr (_get_popup_contents o) ""))
    let author := pyOr o.tField (pyOr o.title "")
    let item : AnnotRecord α :=
      { page := page_index + 1
        type := "/" ++ pyCapitalize subtype
        content := content
        author := author
        position := o.rect }
    if drop_empty ∧ content = "" ∧ author = "" then none
    else some item

/-- The page loop of the plain extractor. -/
def plainPageLoop (env : PdfEnv α) (include_types : List String)
    (drop_empty : Bool) : List Int → Except String (List (AnnotRecord α))
  | [] => .ok []
  | i :: rest =>
    match pyIndex env.pypages i with
    | some py =>
      let here :=
        match py.annots with
        | none => []
        | some annots => annots.filterMap (processPlainAnnot i include_types drop_empty)
      match plainPageLoop env include_types drop_empty rest with
      | .error e => .error e
      | .ok more => .ok (here ++ more)
    | none => .error "IndexError: page index out of range"

/-- `extract_annotations(pdf_path, page_range, include_types, drop_empty)`
from `backends/pypdf2_backend.py`, given the opened document. -/
def extract_annotations (env : PdfEnv α) (page_range : Option String)
    (include_types : List String) (drop_empty : Bool := true) :
    Except String (List (AnnotRecord α)) :=
  match parse_page_range (env.pypages.length : Int) page_range with
  | .error e => .error e
  | .ok idxs => plainPageLoop env include_types drop_empty idxs

/-! ## `tools/mcp_tools.py` — the exposed operations

A tool either returns a string to the caller — an error message or a
serialized success payload — or lets an exception escape to the protocol
layer. Serialization is out of scope per the specification, so a success
payload is kept structured: a tool call is embedded as
`Except String (ToolReply payload)`, where `Except.error` is an exception
escaping the tool function and `ToolReply.message` is a returned
plain-text message. -/

inductive ToolReply (γ : Type) where
  | message : String → ToolReply γ
  | payload : γ → ToolReply γ
deriving DecidableEq

/-- The world a tool call runs against: the sandbox configuration, the
filesystem, and the PDF-opening primitive (`docOf p = none` models
`PyPDF2.PdfReader`/`pdfplumber.open` raising on `p`). -/
structure ToolEnv (α : Type) where
  cfg : SandboxConfig
  fs : Fs
  docOf : String → Option (PdfEnv α)

/-- `{t.strip().lstrip("/").lower() for t in include_types.split(",") if t.strip()}`
(as a list; only emptiness and membership are consumed). -/
def parseIncludeTypes (include_types : String) : List String :=
  (include_types.splitOn ",").filterMap
    (fun t => if pyStrip t = "" then none
              else some (pyLower (pyLstripSlash (pyStrip t))))

/-- The success payload of the `extract_annotations` tool. -/
structure AnnotationsResult (α : Type) where
  file_name : String
  path : String
  page_range : String
  total_annotations : Nat
  annots : List (AnnotRecord α)
deriving DecidableEq

/-- `page_range or "all"`. -/
def pageRangeLabel (page_range : Option String) : String :=
  match page_range with
  | none => "all"
  | some s => pyOr s "all"

/-- The `extract_annotations` tool from `tools/mcp_tools.py`. There is no
try/except around the backend call: a backend exception (including the
`ValueError` from `parse_page_range`) escapes as `Except.error`. -/
def tool_extract_annotations (env : ToolEnv α) (file_path : String)
    (page_range : Option String) (include_types : String := "Highlight,Text")
    (drop_empty : Bool := true) :
    Except String (ToolReply (AnnotationsResult α)) :=
  match find_file env.cfg env.fs file_path with
  | none =>
    .ok (.message ("Error: Could not find file " ++ file_path ++
      ". Provide an absolute path or place the file within the configured accessible directories."))
  | some path =>
    let types := parseIncludeTypes include_types
    match env.docOf path with
    | none => .error "PdfReadError: could not open file"
    | some doc =>
      match extract_annotations doc page_range types drop_empty with
      | .error e => .error e
      | .ok items =>
        .ok (.payload
          { file_name := pyBasename path, path := path,
            page_range := pageRangeLabel page_range,
            total_annotations := items.length, annots := items })

/-- The `extract_highlights_with_context` tool from `tools/mcp_tools.py`;
like `extract_annotations`, it has no try/except of its own. -/
def tool_extract_highlights (env : ToolEnv α) (file_path : String)
    (page_range : Option String) (drop_empty : Bool := true) :
    Except String (ToolReply (List (HighlightContext α))) :=
  match find_file env.cfg env.fs file_path with
  | none => .ok (.message ("Error: Could not find file " ++ file_path ++ "."))
  | some path =>
    match env.docOf path with
    | none => .error "PdfReadError: could not open file"
    | some doc =>
      match extract_highlights_with_context doc page_range drop_empty with
      | .error e => .error e
      | .ok items =>
        if items = [] then
          .ok (.message ("No highlights (with text) found in " ++
            pyBasename path ++ " (scope: " ++ pageRangeLabel page_range ++ ")."))
        else .ok (.payload items)

/-- One entry of `extracted_pages` in the `read_pdf_text` tool. -/
structure PageText where
  page_number : Int
  text : String
  char_count : Nat
deriving DecidableEq

/-- The success payload of the `read_pdf_text` tool. -/
structure ReadTextResult where
  file_name : String
  total_pages : Nat
  page_range : String
  extracted_pages : List PageText
  meta : PdfMeta
deriving DecidableEq

/-- The page-text loop inside `read_pdf_text`. -/
def readPagesLoop (doc : PdfEnv α) : List Int → Except String (List PageText)
  | [] => .ok []
  | i :: rest =>
    match pyIndex doc.plpages i with
    | none => .error "IndexError: page index out of range"
    | some pl =>
      let text := pyStrip (pl.fullText.getD "")
      match readPagesLoop doc rest with
      | .error e => .error e
      | .ok more =>
        .ok ({ page_number := i + 1, text := text,
               char_count := text.length } :: more)

/-- The `read_pdf_text` tool from `tools/mcp_tools.py`. Its whole body
after `find_file` sits inside `try/except` blocks that turn `ValueError`
and every other exception into an `Error: ...` message, so the tool never
lets an exception escape. -/
def tool_read_pdf_text (env : ToolEnv α) (file_path : String)
    (page_range : Option String) : Except String (ToolReply ReadTextResult) :=
  match find_file env.cfg env.fs file_path with
  | none => .ok (.message ("Error: Could not find file " ++ file_path ++ "."))
  | some path =>
    let attempt : Except String ReadTextResult :=
      match env.docOf path with
      | none => .error "PdfReadError: could not open file"
      | some doc =>
        match parse_page_range (doc.plpages.length : Int) page_range with
        | .error e => .error e
        | .ok idxs =>
          match readPagesLoop doc idxs with
          | .error e => .error e
          | .ok pages =>
            .ok { file_name := pyBasename path,
                  total_pages := doc.plpages.length,
                  page_range := pageRangeLabel page_range,
                  extracted_pages := pages, meta := doc.meta }
    match attempt with
    | .ok r => .ok (.payload r)
    | .error e => .ok (.message ("Error: " ++ e))

/-! ## Well-formedness of boxes -/

/-- The `BBox` invariant stated by the specification: `x0 ≤ x1` and
`top ≤ bottom`. -/
def wfBox (b : BBox α) : Prop := b.x0 ≤ b.x1 ∧ b.top ≤ b.bottom

/-! ## Concrete demonstration world

A small filesystem and a one-page PDF with one highlight, one sticky note
and one empty annotation, used to instantiate the general theorems on
concrete inputs. Coordinates are integer-valued (`α := ℤ`) so the kernel
can evaluate them. -/

def demoFiles : List String :=
  ["/allowed/doc.pdf", "/allowed-evil/doc.pdf", "/r1/my-report.pdf",
   "/r2/report.pdf", "/docs/doc.pdf"]

def fsDemo : Fs where
  realpath := fun s => s
  abspath := fun s => s
  expanduser := fun s => s
  isFile := fun s => demoFiles.contains s
  fsExists := fun s => demoFiles.contains s
  size := fun _ => 4096
  glob := fun d =>
    if d = "/r1" then ["my-report.pdf"]
    else if d = "/r2" then ["report.pdf"]
    else if d = "/docs" then ["doc.pdf"]
    else []

def cfgAllowed : SandboxConfig := { dirs := ["/allowed"], maxFileSize := 1000000 }

def cfgRoots : SandboxConfig := { dirs := ["/r1", "/r2"], maxFileSize := 1000000 }

def cfgDocs : SandboxConfig := { dirs := ["/docs"], maxFileSize := 1000000 }

def demoWordHi : Word ℤ := { text := "Hi", wx0 := 0, wtop := 5, wx1 := 10, wbottom := 9 }

def demoPl : PlPage ℤ where
  height := 100
  words := [demoWordHi]
  crop := fun _ => none
  fullText := some "Page text"

/-- A highlight with one quad group `[0,95,22,95,0,90,22,90]`: in
pdfplumber space the box `[0, 5, 22, 10]`. -/
def demoHl : AnnotObj ℤ :=
  { subtype := "/Highlight", tField := "alice", contents := "note!",
    quadPoints := some [0, 95, 22, 95, 0, 90, 22, 90] }

def demoTextAnnot : AnnotObj ℤ :=
  { subtype := "/Text", contents := "memo", rect := [1, 2, 3, 4] }

def demoEmptyAnnot : AnnotObj ℤ := { subtype := "/Text" }

def demoPdf : PdfEnv ℤ where
  pypages := [⟨some [demoHl, demoTextAnnot, demoEmptyAnnot]⟩]
  plpages := [demoPl]

def demoToolEnv : ToolEnv ℤ where
  cfg := cfgDocs
  fs := fsDemo
  docOf := fun p => if p = "/docs/doc.pdf" then some demoPdf else none

/-- The unified record the demo highlight produces. -/
def demoHlItem : HighlightContext ℤ :=
  { page := 1, author := "alice", highlighted_text := "Hi", note := "note!",
    position := ⟨0, 5, 22, 10⟩ }

/-- The two records the demo document yields under the plain extractor. -/
def demoPlainHl : AnnotRecord ℤ :=
  { page := 1, type := "/Highlight", content := "note!", author := "alice",
    position := [] }

def demoPlainText : AnnotRecord ℤ :=
  { page := 1, type := "/Text", content := "memo", author := "",
    position := [1, 2, 3, 4] }

/-- The two words of the specification's correlator example. -/
def demoHello : Word ℤ := { text := "Hello", wx0 := 0, wtop := 0, wx1 := 10, wbottom := 5 }

def demoWorld : Word ℤ := { text := "World", wx0 := 12, wtop := 0, wx1 := 22, wbottom := 5 }

/-! # Theorems -/

/-! ## Claim C1 — candidates outside every allowed root resolve to `NotFound` -/

theorem is_within_eq_false {fs : Fs} {r target : String}
    (h1 : strStartsWith (fs.realpath target) (pyJoinEmpty (fs.realpath r)) = false)
    (h2 : fs.realpath target ≠ strDropLast (pyJoinEmpty (fs.realpath r))) :
    _is_within fs r target = false := by
  unfold _is_within
  simp only [h1, Bool.false_or, decide_eq_false_iff_not]
  exact h2

/-- **C1.** If the canonical (symlink-resolved) real path of the candidate
is, for every configured root, neither a separator-bounded path-prefix
extension of the root's canonical form nor exactly equal to it (the
`base[:-1]` comparison of `_is_within`), then `validate_and_resolve_path`
returns `none` — regardless of the file's extension, existence or size.
In particular a sibling such as `/allowed-evil/...` never matches the root
`/allowed` (see the witness). -/
theorem c1_outside_roots_not_found (cfg : SandboxConfig) (fs : Fs)
    (cand : String)
    (h : ∀ r ∈ cfg.dirs,
      strStartsWith (fs.realpath (fs.realpath (pyAbsOf fs cand)))
          (pyJoinEmpty (fs.realpath r)) = false ∧
      fs.realpath (fs.realpath (pyAbsOf fs cand)) ≠
          strDropLast (pyJoinEmpty (fs.realpath r))) :
    validate_and_resolve_path cfg fs cand = none := by
  unfold validate_and_resolve_path
  have hany : cfg.dirs.any
      (fun allowed => _is_within fs allowed (fs.realpath (pyAbsOf fs cand))) = false := by
    rw [List.any_eq_false]
    intro r hr
    rw [is_within_eq_false (h r hr).1 (h r hr).2]
    simp
  simp only [hany]
  simp

/-- Witness for C1: with the root `/allowed`, the sibling path
`/allowed-evil/doc.pdf` — an existing regular `.pdf` file of valid size in
the demo filesystem — still resolves to `none`. -/
theorem c1_witness :
    validate_and_resolve_path cfgAllowed fsDemo "/allowed-evil/doc.pdf" = none ∧
    fsDemo.isFile "/allowed-evil/doc.pdf" = true ∧
    pyLower (pySuffix "/allowed-evil/doc.pdf") = ".pdf" ∧
    fsDemo.size "/allowed-evil/doc.pdf" ≤ cfgAllowed.maxFileSize :=
  ⟨c1_outside_roots_not_found cfgAllowed fsDemo "/allowed-evil/doc.pdf"
      (by decide),
   by decide, by decide, by decide⟩

/-! ## Claim C2 — a literal `..` segment is always rejected -/

/-- **C2.** Whenever the original, unresolved candidate string contains a
literal `..` path segment, `validate_and_resolve_path` returns `none`,
for every configuration and filesystem — in particular regardless of
where the symlink-resolved real path lands. -/
theorem c2_dotdot_not_found (cfg : SandboxConfig) (fs : Fs) (cand : String)
    (h : ".." ∈ pathParts cand) :
    validate_and_resolve_path cfg fs cand = none := by
  unfold validate_and_resolve_path
  have hc : (pathParts cand).contains ".." = true := List.elem_iff.mpr h
  simp only [hc]
  simp

/-- Witness for C2: `/allowed/../allowed/doc.pdf` is rejected even though
its resolved path (identity in the demo filesystem after `realpath`)
would be the in-sandbox file `/allowed/doc.pdf`, which itself validates. -/
theorem c2_witness :
    validate_and_resolve_path cfgAllowed fsDemo "/allowed/../allowed/doc.pdf" = none ∧
    validate_and_resolve_path cfgAllowed fsDemo "/allowed/doc.pdf" =
      some "/allowed/doc.pdf" :=
  ⟨c2_dotdot_not_found cfgAllowed fsDemo "/allowed/../allowed/doc.pdf" (by decide),
   by decide⟩

/-! ## Claim C3 — exact-match priority in `find_file`

The claim asserts a two-pass search: the fuzzy fallback runs only after
the exact join has failed in *every* root. The code instead finishes each
root — exact join, then fuzzy scan — before moving to the next root, so a
substring hit in an earlier root shadows an exact match in a later one. -/

/-- **C3, counterexample.** With roots `/r1` (holding `my-report.pdf`)
and `/r2` (holding `report.pdf`), the query `report.pdf` has an exact
match in the later root `/r2` that validates and exists, yet `find_file`
returns the substring hit `/r1/my-report.pdf` from the earlier root. -/
theorem c3_counterexample :
    validate_and_resolve_path cfgRoots fsDemo (pyPathJoin "/r2" "report.pdf") =
      some "/r2/report.pdf" ∧
    fsDemo.fsExists "/r2/report.pdf" = true ∧
    find_file cfgRoots fsDemo "report.pdf" = some "/r1/my-report.pdf" ∧
    "/r1/my-report.pdf" ≠ "/r2/report.pdf" := by decide

/-- **C3, amended.** For a non-absolute, non-home-relative name,
`find_file` scans the configured roots in order and, *within each root*,
tries the exact filename join before the case-insensitive substring scan:
if the exact join in the first root validates and exists it wins; and if
the exact join in the first root fails to validate, a successful substring
hit in that same first root is returned — regardless of any exact match a
later root may hold. -/
theorem c3_amended_per_root_scan (cfg : SandboxConfig) (fs : Fs)
    (name d : String) (rest : List String)
    (hdirs : cfg.dirs = d :: rest)
    (habs : pyIsAbs name = false) (htld : startsWithChar name '~' = false) :
    (∀ p, validate_and_resolve_path cfg fs (pyPathJoin d name) = some p →
        fs.fsExists p = true → find_file cfg fs name = some p) ∧
    (∀ q, validate_and_resolve_path cfg fs (pyPathJoin d name) = none →
        fuzzyScan cfg fs name d (fs.glob d) = some q →
        find_file cfg fs name = some q) := by
  have hdirect : find_file cfg fs name = searchDirs cfg fs name cfg.dirs := by
    unfold find_file
    rw [habs, htld]
    simp
  constructor
  · intro p hv he
    rw [hdirect, hdirs]
    unfold searchDirs
    rw [hv]
    simp [he]
  · intro q hv hf
    rw [hdirect, hdirs]
    unfold searchDirs
    rw [hv, hf]

/-- Witness for the amended C3: in the demo world the exact join in `/r1`
does not validate, the fuzzy scan of `/r1` yields `/r1/my-report.pdf`,
and `find_file` indeed returns it. -/
theorem c3_amended_witness :
    find_file cfgRoots fsDemo "report.pdf" = some "/r1/my-report.pdf" :=
  (c3_amended_per_root_scan cfgRoots fsDemo "report.pdf" "/r1" ["/r2"]
      rfl (by decide) (by decide)).2
    "/r1/my-report.pdf" (by decide) (by decide)

/-! ## Page-range parsing lemmas -/

theorem splitFirstChar_append (a b : List Char) (hna : '-' ∉ a) :
    splitFirstChar (a ++ '-' :: b) '-' = (a, b) := by
  induction a with
  | nil => simp [splitFirstChar]
  | cons c cs ih =>
    have hc : c ≠ '-' := fun h => hna (h ▸ List.mem_cons_self c cs)
    have hcs : '-' ∉ cs := fun h => hna (List.mem_cons_of_mem c h)
    simp [splitFirstChar, hc, ih hcs]

theorem intRange_eq_nil {a b : Int} (h : b ≤ a) : intRange a b = [] := by
  unfold intRange
  have h0 : (b - a).toNat = 0 := Int.toNat_of_nonpos (sub_nonpos.mpr h)
  rw [h0]
  rfl

/-- Characterization of the hyphenated branch of `parse_page_range`: once
the normalized spec splits as `a-b` at its first hyphen, the result is
determined by the parsed bounds (`a` empty defaulting to `1`, `b` empty
defaulting to `total_pages`). -/
theorem parse_hyphen_spec (t : Int) (ht : 0 < t) (pr0 : String)
    (a b : List Char)
    (hsplit : (pyLower (pyStrip pr0)).data = a ++ '-' :: b) (hna : '-' ∉ a)
    (s_i e_i : Int)
    (hs : (if (⟨a⟩ : String) = "" then some 1 else pyInt ⟨a⟩) = some s_i)
    (he : (if (⟨b⟩ : String) = "" then some t else pyInt ⟨b⟩) = some e_i) :
    parse_page_range t (some pr0) =
      if s_i < 1 ∨ e_i < 1 ∨ s_i > t then
        Except.error ("Invalid page range: " ++ pr0)
      else Except.ok (intRange (s_i - 1) (min e_i t)) := by
  have hle : ¬ t ≤ 0 := not_le.mpr ht
  have hmem : ('-' : Char) ∈ (pyLower (pyStrip pr0)).data := by
    rw [hsplit]; simp
  have hfirst : pyLower (pyStrip pr0) ≠ "first" := by
    intro hf; rw [hf] at hmem; exact absurd hmem (by decide)
  have hlast : pyLower (pyStrip pr0) ≠ "last" := by
    intro hf; rw [hf] at hmem; exact absurd hmem (by decide)
  have hcontains : (pyLower (pyStrip pr0)).data.contains '-' = true :=
    List.elem_iff.mpr hmem
  have hsplitEq : splitFirstChar (pyLower (pyStrip pr0)).data '-' = (a, b) := by
    rw [hsplit]; exact splitFirstChar_append a b hna
  unfold parse_page_range
  rw [if_neg hle]
  simp only [if_neg hfirst, if_neg hlast, hcontains, if_pos rfl, hsplitEq]
  rw [hs, he]
  simp

/-- Characterization of the single-page branch of `parse_page_range`:
when the normalized spec has no hyphen but parses as an integer `p`, the
result is `[p-1]` in bounds and `InvalidRange` out of bounds. -/
theorem parse_single_spec (t : Int) (ht : 0 < t) (pr0 : String) (p : Int)
    (hnh : (pyLower (pyStrip pr0)).data.contains '-' = false)
    (hp : pyInt (pyLower (pyStrip pr0)) = some p) :
    parse_page_range t (some pr0) =
      if p < 1 ∨ p > t then
        Except.error ("Page " ++ toString p ++ " out of range (1-" ++
          toString t ++ ")")
      else Except.ok [p - 1] := by
  have hle : ¬ t ≤ 0 := not_le.mpr ht
  have hfirst : pyLower (pyStrip pr0) ≠ "first" := by
    intro hf
    rw [hf, show pyInt "first" = none from by decide] at hp
    exact Option.noConfusion hp
  have hlast : pyLower (pyStrip pr0) ≠ "last" := by
    intro hf
    rw [hf, show pyInt "last" = none from by decide] at hp
    exact Option.noConfusion hp
  unfold parse_page_range
  rw [if_neg hle]
  simp only [if_neg hfirst, if_neg hlast, hnh]
  simp only [Bool.false_eq_true, if_false]
  rw [hp]

/-! ## Claim C4 — the page-range rule table -/

/-- **C4.** `parse_page_range` obeys the rule table: non-positive totals
always give the empty set; `none` gives all pages; case-insensitive
(and whitespace-tolerant) `first`/`last` give the first/last page; a
hyphenated spec defaults a missing start to `1` and a missing end to
`total_pages`, rejects `start < 1`, `end < 1` or `start > total_pages`,
and clamps the end, yielding the zero-based half-open range
`[start-1, min(end,total_pages))`; a single out-of-bounds integer is
rejected; and the five concrete round-trips of the specification hold. -/
theorem c4_page_range_rules :
    (∀ (t : Int), t ≤ 0 → ∀ spec, parse_page_range t spec = .ok [])
    ∧ (∀ (t : Int), 0 < t → parse_page_range t none = .ok (intRange 0 t))
    ∧ (∀ (t : Int), 0 < t → ∀ s, pyLower (pyStrip s) = "first" →
        parse_page_range t (some s) = .ok [0])
    ∧ (∀ (t : Int), 0 < t → ∀ s, pyLower (pyStrip s) = "last" →
        parse_page_range t (some s) = .ok [t - 1])
    ∧ (∀ (t : Int), 0 < t → ∀ (pr0 : String) (a b : List Char) (s_i e_i : Int),
        (pyLower (pyStrip pr0)).data = a ++ '-' :: b → '-' ∉ a →
        (if (⟨a⟩ : String) = "" then some 1 else pyInt ⟨a⟩) = some s_i →
        (if (⟨b⟩ : String) = "" then some t else pyInt ⟨b⟩) = some e_i →
        parse_page_range t (some pr0) =
          if s_i < 1 ∨ e_i < 1 ∨ s_i > t then
            Except.error ("Invalid page range: " ++ pr0)
          else Except.ok (intRange (s_i - 1) (min e_i t)))
    ∧ (∀ (t : Int), 0 < t → ∀ (pr0 : String) (p : Int),
        (pyLower (pyStrip pr0)).data.contains '-' = false →
        pyInt (pyLower (pyStrip pr0)) = some p →
        p < 1 ∨ p > t →
        parse_page_range t (some pr0) =
          Except.error ("Page " ++ toString p ++ " out of range (1-" ++
            toString t ++ ")"))
    ∧ parse_page_range 10 (some "3-7") = .ok [2, 3, 4, 5, 6]
    ∧ parse_page_range 10 (some "first") = .ok [0]
    ∧ parse_page_range 10 (some "last") = .ok [9]
    ∧ parse_page_range 10 (some "11") = .error "Page 11 out of range (1-10)"
    ∧ parse_page_range 10 (some "5-100") = .ok [4, 5, 6, 7, 8, 9] := by
  refine ⟨?_, ?_, ?_, ?_, ?_, ?_, ?_, ?_, ?_, ?_, ?_⟩
  · intro t ht spec
    unfold parse_page_range
    rw [if_pos ht]
  · intro t ht
    unfold parse_page_range
    rw [if_neg (not_le.mpr ht)]
  · intro t ht s hs
    unfold parse_page_range
    rw [if_neg (not_le.mpr ht)]
    simp only [hs]
    simp
  · intro t ht s hs
    unfold parse_page_range
    rw [if_neg (not_le.mpr ht)]
    simp only [hs]
    have : ("last" : String) ≠ "first" := by decide
    simp [this]
  · intro t ht pr0 a b s_i e_i hsplit hna hs he
    exact parse_hyphen_spec t ht pr0 a b hsplit hna s_i e_i hs he
  · intro t ht pr0 p hnh hp hout
    rw [parse_single_spec t ht pr0 p hnh hp, if_pos hout]
  · decide
  · decide
  · decide
  · decide
  · decide

/-- Witness for C4: each hypothesis-bearing rule instantiated on a
concrete input. -/
theorem c4_witness :
    parse_page_range (-2) (some "junk") = .ok [] ∧
    parse_page_range 7 none = .ok (intRange 0 7) ∧
    parse_page_range 5 (some " FIRST ") = .ok [0] ∧
    parse_page_range 5 (some "Last") = .ok [4] ∧
    parse_page_range 9 (some "2-") = .ok (intRange 1 9) ∧
    parse_page_range 9 (some "12") = .error "Page 12 out of range (1-9)" := by
  refine ⟨?_, ?_, ?_, ?_, ?_, ?_⟩
  · exact c4_page_range_rules.1 (-2) (by decide) (some "junk")
  · exact c4_page_range_rules.2.1 7 (by decide)
  · exact c4_page_range_rules.2.2.1 5 (by decide) " FIRST " (by decide)
  · have h := c4_page_range_rules.2.2.2.1 5 (by decide) "Last" (by decide)
    simpa using h
  · have h := c4_page_range_rules.2.2.2.2.1 9 (by decide) "2-" ['2'] [] 2 9
      (by decide) (by decide) (by decide) (by decide)
    rw [h]
    decide
  · exact c4_page_range_rules.2.2.2.2.2.1 9 (by decide) "12" 12
      (by decide) (by decide) (by decide)

/-! ## Claim C10 — inverted hyphen ranges yield the empty set, no error -/

/-- **C10.** For a positive total and a hyphenated spec whose explicit
start `S` is in bounds (`1 ≤ S ≤ total_pages`) and whose explicit end `E`
satisfies `1 ≤ E < S`, `parse_page_range` raises nothing and returns the
empty page-index list. -/
theorem c10_inverted_range_empty (t : Int) (ht : 1 ≤ t) (pr0 : String)
    (a b : List Char) (S E : Int)
    (hsplit : (pyLower (pyStrip pr0)).data = a ++ '-' :: b) (hna : '-' ∉ a)
    (hS : (if (⟨a⟩ : String) = "" then some 1 else pyInt ⟨a⟩) = some S)
    (hE : (if (⟨b⟩ : String) = "" then some t else pyInt ⟨b⟩) = some E)
    (hS1 : 1 ≤ S) (hSt : S ≤ t) (hE1 : 1 ≤ E) (hES : E < S) :
    parse_page_range t (some pr0) = .ok [] := by
  rw [parse_hyphen_spec t (by omega) pr0 a b hsplit hna S E hS hE]
  rw [if_neg (by omega)]
  have hmin : min E t ≤ S - 1 := by
    have := min_le_left E t
    omega
  rw [intRange_eq_nil hmin]

/-- Witness for C10: `parse(total=10, "7-3")` is `ok []`. -/
theorem c10_witness : parse_page_range 10 (some "7-3") = .ok [] :=
  c10_inverted_range_empty 10 (by decide) "7-3" ['7'] ['3'] 7 3
    (by decide) (by decide) (by decide) (by decide)
    (by decide) (by decide) (by decide) (by decide)

/-! ## Claim C6 — the fallback word-grouping correlator -/

/-- **C6.** The fallback correlator selects exactly the words passing the
open overlap test, sorts the survivors by `(top, x0)` (a stable sort:
sorted output, a permutation of the input), returns `""` on an empty word
list for any box, and on the specification's concrete example — `Hello`
at `[0,0,10,5]` and `World` at `[12,0,22,5]` inside the box `[0,0,22,5]`
— returns `"Hello World"` in either input order. -/
theorem c6_fallback_correlator :
    (∀ (α : Type) [inst : LinearOrderedCommRing α] (bbox : BBox α)
        (ws : List (Word α)) (w : Word α),
      w ∈ _words_in_bbox bbox ws ↔
        w ∈ ws ∧ ¬(w.wx1 ≤ bbox.x0 ∨ w.wx0 ≥ bbox.x1 ∨
                   w.wbottom ≤ bbox.top ∨ w.wtop ≥ bbox.bottom))
    ∧ (∀ (α : Type) [inst : LinearOrderedCommRing α] (ws : List (Word α)),
        List.Sorted wordKeyLe (sortWords ws) ∧ (sortWords ws).Perm ws)
    ∧ (∀ (α : Type) [inst : LinearOrderedCommRing α] (bbox : BBox α)
        (tol : α), _text_from_words_grouped bbox [] tol = "")
    ∧ _text_from_words_grouped (⟨0, 0, 22, 5⟩ : BBox ℤ)
        [demoHello, demoWorld] = "Hello World"
    ∧ _text_from_words_grouped (⟨0, 0, 22, 5⟩ : BBox ℤ)
        [demoWorld, demoHello] = "Hello World" := by
  refine ⟨?_, ?_, ?_, by decide, by decide⟩
  · intro α inst bbox ws w
    simp [_words_in_bbox, List.mem_filter, _intersects, not_or]
    tauto
  · intro α inst ws
    exact ⟨List.sorted_insertionSort wordKeyLe ws,
           List.perm_insertionSort wordKeyLe ws⟩
  · intro α inst bbox tol
    rfl

/-! ## Claim C5 — multi-quad highlights: per-quad text, unioned position -/

theorem quadChunks_flatten {α : Type} (groups : List (List α))
    (h : ∀ g ∈ groups, g.length = 8) :
    quadChunks groups.flatten = .ok groups := by
  induction groups with
  | nil => rfl
  | cons g gs ih =>
    have hg : g.length = 8 := h g (List.mem_cons_self g gs)
    have hgs : ∀ x ∈ gs, x.length = 8 :=
      fun x hx => h x (List.mem_cons_of_mem g hx)
    rcases g with _ | ⟨q0, g⟩; · simp at hg
    rcases g with _ | ⟨q1, g⟩; · simp at hg
    rcases g with _ | ⟨q2, g⟩; · simp at hg
    rcases g with _ | ⟨q3, g⟩; · simp at hg
    rcases g with _ | ⟨q4, g⟩; · simp at hg
    rcases g with _ | ⟨q5, g⟩; · simp at hg
    rcases g with _ | ⟨q6, g⟩; · simp at hg
    rcases g with _ | ⟨q7, g⟩; · simp at hg
    rcases g with _ | ⟨q8, g⟩
    · simp only [List.flatten_cons, List.cons_append, List.nil_append]
      show quadChunks (q0 :: q1 :: q2 :: q3 :: q4 :: q5 :: q6 :: q7 :: gs.flatten) = _
      unfold quadChunks
      rw [ih hgs]
    · simp at hg

theorem foldl_spans {β : Type} (f : β → String) (l : List β) (acc : List String) :
    l.foldl (fun acc bb =>
      let t := f bb
      if t = "" then acc else acc ++ [t]) acc
      = acc ++ (l.map f).filter (· ≠ "") := by
  induction l generalizing acc with
  | nil => simp
  | cons x xs ih =>
    simp only [List.foldl_cons, List.map_cons, List.filter_cons]
    by_cases hx : f x = ""
    · simp only [hx]
      rw [ih]
      simp
    · simp only [hx]
      rw [ih]
      simp [hx]

theorem min?_isSome {β : Type} [Min β] {l : List β} (h : l ≠ []) :
    ∃ m, l.min? = some m := by
  cases l with
  | nil => exact absurd rfl h
  | cons a as => exact ⟨as.foldl min a, rfl⟩

theorem max?_isSome {β : Type} [Max β] {l : List β} (h : l ≠ []) :
    ∃ m, l.max? = some m := by
  cases l with
  | nil => exact absurd rfl h
  | cons a as => exact ⟨as.foldl max a, rfl⟩

/-- **C5.** For a highlight whose `/QuadPoints` consist of `N ≥ 1` groups
of eight floats, `processAnnot` (the per-annotation body of
`extract_highlights_with_context`) converts each group to a layout-space
box through `groupToBox` (built on the Y-axis converter
`pypdf_to_plumber_y`), runs the text correlator per quad box, joins the
non-empty per-quad texts with spaces in quad order, and reports as
`position` the componentwise union — `min?` of the boxes' `x0`/`top`,
`max?` of their `x1`/`bottom` — producing one unified record (subject
only to the `drop_empty` filter). -/
theorem c5_highlight_multi_quad {α : Type} [LinearOrderedCommRing α]
    (pl : PlPage α) (i : Int) (de : Bool) (o : AnnotObj α)
    (groups : List (List α))
    (hsub : pyLower (pyLstripSlash o.subtype) = "highlight")
    (hq : o.quadPoints = some groups.flatten)
    (hlen : ∀ g ∈ groups, g.length = 8)
    (hne : groups ≠ []) :
    ∃ u : BBox α,
      union_boxes (groups.map (groupToBox pl.height)) = some u ∧
      ((groups.map (groupToBox pl.height)).map BBox.x0).min? = some u.x0 ∧
      ((groups.map (groupToBox pl.height)).map BBox.top).min? = some u.top ∧
      ((groups.map (groupToBox pl.height)).map BBox.x1).max? = some u.x1 ∧
      ((groups.map (groupToBox pl.height)).map BBox.bottom).max? = some u.bottom ∧
      processAnnot pl i de o = .ok
        (if de = true ∧
            pyStrip (String.intercalate " "
              (((groups.map (groupToBox pl.height)).map
                  (extract_text_from_bbox pl)).filter (· ≠ ""))) = "" ∧
            _note_from_obj o = ""
         then none
         else some
           { page := i + 1
             author := pyOr o.tField (pyOr o.title "")
             highlighted_text :=
               pyStrip (String.intercalate " "
                 (((groups.map (groupToBox pl.height)).map
                     (extract_text_from_bbox pl)).filter (· ≠ "")))
             note := _note_from_obj o
             position := u }) := by
  have hboxne : groups.map (groupToBox pl.height) ≠ [] := by
    intro hmap
    exact hne (List.map_eq_nil_iff.mp hmap)
  obtain ⟨a, ha⟩ := min?_isSome
    (l := (groups.map (groupToBox pl.height)).map BBox.x0)
    (by simp only [ne_eq, List.map_eq_nil_iff]; exact hne)
  obtain ⟨b, hb⟩ := min?_isSome
    (l := (groups.map (groupToBox pl.height)).map BBox.top)
    (by simp only [ne_eq, List.map_eq_nil_iff]; exact hne)
  obtain ⟨c, hc⟩ := max?_isSome
    (l := (groups.map (groupToBox pl.height)).map BBox.x1)
    (by simp only [ne_eq, List.map_eq_nil_iff]; exact hne)
  obtain ⟨d, hd⟩ := max?_isSome
    (l := (groups.map (groupToBox pl.height)).map BBox.bottom)
    (by simp only [ne_eq, List.map_eq_nil_iff]; exact hne)
  have hunion : union_boxes (groups.map (groupToBox pl.height)) = some ⟨a, b, c, d⟩ := by
    unfold union_boxes
    rw [ha, hb, hc, hd]
  have hjlen : 8 ≤ groups.flatten.length := by
    rcases groups with _ | ⟨g, gs⟩
    · exact absurd rfl hne
    · have hg := hlen g (List.mem_cons_self _ _)
      rw [List.flatten_cons, List.length_append, hg]
      omega
  have hannot : annotBoxes pl.height o = .ok (groups.map (groupToBox pl.height)) := by
    simp only [annotBoxes, hq]
    rw [if_pos hjlen, quadChunks_flatten groups hlen]
  refine ⟨⟨a, b, c, d⟩, hunion, ha, hb, hc, hd, ?_⟩
  simp only [processAnnot, hsub, ne_eq, not_true_eq_false, if_false, hannot,
    if_neg hboxne]
  rw [foldl_spans (extract_text_from_bbox pl) (groups.map (groupToBox pl.height)) []]
  rw [List.nil_append, hunion]
  by_cases hdrop : de = true ∧
      pyStrip (String.intercalate " "
        (((groups.map (groupToBox pl.height)).map
            (extract_text_from_bbox pl)).filter (· ≠ ""))) = "" ∧
      _note_from_obj o = ""
  · simp only [if_pos hdrop]
  · simp only [if_neg hdrop]

/-- Witness for C5: the demo highlight (one quad group) yields exactly
the unified record `demoHlItem`. -/
theorem c5_witness : processAnnot demoPl 0 true demoHl = .ok (some demoHlItem) := by
  obtain ⟨u, hu, _, _, _, _, hp⟩ :=
    c5_highlight_multi_quad demoPl 0 true demoHl
      [[0, 95, 22, 95, 0, 90, 22, 90]] (by decide) rfl (by decide) (by decide)
  have hu2 : union_boxes
      (([[0, 95, 22, 95, 0, 90, 22, 90]] : List (List ℤ)).map
        (groupToBox demoPl.height)) = some ⟨0, 5, 22, 10⟩ := by decide
  have huu : u = ⟨0, 5, 22, 10⟩ := by
    have := hu.symm.trans hu2
    exact Option.some_injective _ this
  rw [hp, huu]
  decide

/-! ## Claim C7 — every reported position is a well-formed box -/

theorem min?_cons_eq {β : Type} [Min β] (a : β) (l : List β) :
    (a :: l).min? = some (l.foldl min a) := rfl

theorem max?_cons_eq {β : Type} [Max β] (a : β) (l : List β) :
    (a :: l).max? = some (l.foldl max a) := rfl

theorem foldl_min_le {β : Type} [LinearOrder β] (l : List β) :
    ∀ (a : β), ∀ x ∈ a :: l, l.foldl min a ≤ x := by
  induction l with
  | nil =>
    intro a x hx
    rcases List.mem_singleton.mp hx with rfl
    exact le_refl x
  | cons b bs ih =>
    intro a x hx
    have hstep : (b :: bs).foldl min a = bs.foldl min (min a b) := rfl
    rcases List.mem_cons.mp hx with rfl | hx2
    · rw [hstep]
      exact le_trans (ih (min x b) (min x b) (List.mem_cons_self _ _))
        (min_le_left x b)
    · rcases List.mem_cons.mp hx2 with rfl | hx3
      · rw [hstep]
        exact le_trans (ih (min a x) (min a x) (List.mem_cons_self _ _))
          (min_le_right a x)
      · rw [hstep]
        exact ih (min a b) x (List.mem_cons_of_mem _ hx3)

theorem foldl_le_max {β : Type} [LinearOrder β] (l : List β) :
    ∀ (a : β), ∀ x ∈ a :: l, x ≤ l.foldl max a := by
  induction l with
  | nil =>
    intro a x hx
    rcases List.mem_singleton.mp hx with rfl
    exact le_refl x
  | cons b bs ih =>
    intro a x hx
    have hstep : (b :: bs).foldl max a = bs.foldl max (max a b) := rfl
    rcases List.mem_cons.mp hx with rfl | hx2
    · rw [hstep]
      exact le_trans (le_max_left x b)
        (ih (max x b) (max x b) (List.mem_cons_self _ _))
    · rcases List.mem_cons.mp hx2 with rfl | hx3
      · rw [hstep]
        exact le_trans (le_max_right a x)
          (ih (max a x) (max a x) (List.mem_cons_self _ _))
      · rw [hstep]
        exact ih (max a b) x (List.mem_cons_of_mem _ hx3)

theorem wf_groupToBox {α : Type} [LinearOrderedCommRing α] (h : α)
    (g : List α) : wfBox (groupToBox h g) := by
  unfold groupToBox
  split
  · exact ⟨le_trans (min_le_right _ _) (le_max_right _ _),
      le_trans (min_le_right _ _) (le_max_right _ _)⟩
  · exact ⟨le_refl 0, le_refl 0⟩

theorem wf_rectBoxes {α : Type} [LinearOrderedCommRing α] (h : α)
    (rect : List α) : ∀ bx ∈ rectBoxes h rect, wfBox bx := by
  intro bx hbx
  unfold rectBoxes at hbx
  split at hbx
  · rcases List.mem_singleton.mp hbx with rfl
    refine ⟨min_le_max, ?_⟩
    show pypdf_to_plumber_y h (max _ _) ≤ pypdf_to_plumber_y h (min _ _)
    unfold pypdf_to_plumber_y
    exact sub_le_sub_left min_le_max h
  · simp at hbx

theorem wf_annotBoxes {α : Type} [LinearOrderedCommRing α] {ph : α}
    {o : AnnotObj α} {boxes : List (BBox α)}
    (h : annotBoxes ph o = .ok boxes) : ∀ bx ∈ boxes, wfBox bx := by
  unfold annotBoxes at h
  split at h
  · split at h
    · split at h
      · injection h with h2
        subst h2
        intro bx hbx
        obtain ⟨g, _, rfl⟩ := List.mem_map.mp hbx
        exact wf_groupToBox ph g
      · exact absurd h (by simp)
    · injection h with h2
      subst h2
      exact wf_rectBoxes ph o.rect
  · injection h with h2
    subst h2
    exact wf_rectBoxes ph o.rect

theorem wf_union_boxes {α : Type} [LinearOrderedCommRing α]
    {boxes : List (BBox α)} {u : BBox α}
    (hwf : ∀ bx ∈ boxes, wfBox bx) (hu : union_boxes boxes = some u) :
    wfBox u := by
  rcases boxes with _ | ⟨b0, bs⟩
  · simp [union_boxes] at hu
  · simp only [union_boxes, List.map_cons, min?_cons_eq, max?_cons_eq] at hu
    injection hu with hu2
    subst hu2
    have hb0 : wfBox b0 := hwf b0 (List.mem_cons_self _ _)
    constructor
    · exact le_trans
        (foldl_min_le (bs.map BBox.x0) b0.x0 b0.x0 (List.mem_cons_self _ _))
        (le_trans hb0.1
          (foldl_le_max (bs.map BBox.x1) b0.x1 b0.x1 (List.mem_cons_self _ _)))
    · exact le_trans
        (foldl_min_le (bs.map BBox.top) b0.top b0.top (List.mem_cons_self _ _))
        (le_trans hb0.2
          (foldl_le_max (bs.map BBox.bottom) b0.bottom b0.bottom
            (List.mem_cons_self _ _)))

theorem wf_processAnnot {α : Type} [LinearOrderedCommRing α]
    {pl : PlPage α} {i : Int} {de : Bool} {o : AnnotObj α}
    {it : HighlightContext α}
    (h : processAnnot pl i de o = .ok (some it)) : wfBox it.position := by
  simp only [processAnnot] at h
  split at h
  · exact absurd h (by simp)
  · split at h
    · exact absurd h (by simp)
    · rename_i bboxes heq
      split at h
      · exact absurd h (by simp)
      · split at h
        · exact absurd h (by simp)
        · rename_i u hun
          split at h
          · exact absurd h (by simp)
          · injection h with h2
            injection h2 with h3
            subst h3
            exact wf_union_boxes (wf_annotBoxes heq) hun

theorem wf_annotLoop {α : Type} [LinearOrderedCommRing α]
    {pl : PlPage α} {i : Int} {de : Bool} :
    ∀ {os : List (AnnotObj α)} {items : List (HighlightContext α)},
      annotLoop pl i de os = .ok items → ∀ it ∈ items, wfBox it.position := by
  intro os
  induction os with
  | nil =>
    intro items h it hit
    simp only [annotLoop] at h
    injection h with h2
    subst h2
    simp at hit
  | cons o os ih =>
    intro items h it hit
    simp only [annotLoop] at h
    split at h
    · exact absurd h (by simp)
    · rename_i r heq
      split at h
      · exact absurd h (by simp)
      · rename_i rest heqr
        injection h with h2
        subst h2
        cases r with
        | some x =>
          rcases List.mem_cons.mp hit with rfl | hit2
          · exact wf_processAnnot heq
          · exact ih heqr it hit2
        | none => exact ih heqr it hit

theorem wf_hlPageLoop {α : Type} [LinearOrderedCommRing α]
    {env : PdfEnv α} {de : Bool} :
    ∀ {idxs : List Int} {items : List (HighlightContext α)},
      hlPageLoop env de idxs = .ok items → ∀ it ∈ items, wfBox it.position := by
  intro idxs
  induction idxs with
  | nil =>
    intro items h it hit
    simp only [hlPageLoop] at h
    injection h with h2
    subst h2
    simp at hit
  | cons i rest ih =>
    intro items h it hit
    simp only [hlPageLoop] at h
    split at h
    · rename_i py pl hpy hpl
      split at h
      · exact ih h it hit
      · rename_i annots hann
        split at h
        · exact absurd h (by simp)
        · rename_i here hhere
          split at h
          · exact absurd h (by simp)
          · rename_i more hmore
            injection h with h2
            subst h2
            rcases List.mem_append.mp hit with hit1 | hit2
            · exact wf_annotLoop hhere it hit1
            · exact ih hmore it hit2
    · exact absurd h (by simp)

/-- **C7.** Every position attached to a record returned by
`extract_highlights_with_context` — whether built from quad-point
conversion, from the rectangle fallback, or as a union of several such
boxes — satisfies the `BBox` invariant `x0 ≤ x1 ∧ top ≤ bottom`. -/
theorem c7_positions_wellformed {α : Type} [LinearOrderedCommRing α]
    (env : PdfEnv α) (pr : Option String) (de : Bool)
    (items : List (HighlightContext α))
    (h : extract_highlights_with_context env pr de = .ok items) :
    ∀ it ∈ items, wfBox it.position := by
  unfold extract_highlights_with_context at h
  split at h
  · exact absurd h (by simp)
  · exact wf_hlPageLoop h

/-- Witness for C7: the record the demo document produces has a
well-formed position. -/
theorem c7_witness : wfBox demoHlItem.position :=
  c7_positions_wellformed demoPdf none true [demoHlItem] (by decide)
    demoHlItem (List.mem_singleton.mpr rfl)

/-! ## Claim C9 — `drop_empty` never lets doubly-empty records through -/

theorem processPlainAnnot_nonempty {α : Type} [LinearOrderedCommRing α]
    {i : Int} {types : List String} {o : AnnotObj α} {it : AnnotRecord α}
    (h : processPlainAnnot i types true o = some it) :
    ¬(it.content = "" ∧ it.author = "") := by
  simp only [processPlainAnnot] at h
  split at h
  · exact absurd h (by simp)
  · split at h
    · exact absurd h (by simp)
    · rename_i hneg
      injection h with h2
      subst h2
      intro hcon
      exact hneg ⟨trivial, hcon.1, hcon.2⟩

theorem plainPageLoop_nonempty {α : Type} [LinearOrderedCommRing α]
    {env : PdfEnv α} {types : List String} :
    ∀ {idxs : List Int} {items : List (AnnotRecord α)},
      plainPageLoop env types true idxs = .ok items →
      ∀ it ∈ items, ¬(it.content = "" ∧ it.author = "") := by
  intro idxs
  induction idxs with
  | nil =>
    intro items h it hit
    simp only [plainPageLoop] at h
    injection h with h2
    subst h2
    simp at hit
  | cons i rest ih =>
    intro items h it hit
    simp only [plainPageLoop] at h
    split at h
    · rename_i py hpy
      split at h
      · exact absurd h (by simp)
      · rename_i more hmore
        injection h with h2
        subst h2
        rcases List.mem_append.mp hit with hit1 | hit2
        · revert hit1
          split
          · intro hit1
            simp at hit1
          · intro hit1
            rename_i annots hann
            obtain ⟨o, _, ho⟩ := List.mem_filterMap.mp hit1
            exact processPlainAnnot_nonempty ho
        · exact ih hmore it hit2
    · exact absurd h (by simp)

/-- **C9.** With `drop_empty = true`, the plain annotation extractor never
returns a record whose `content` and `author` are both empty. -/
theorem c9_drop_empty_no_blank_records {α : Type} [LinearOrderedCommRing α]
    (env : PdfEnv α) (pr : Option String) (types : List String)
    (items : List (AnnotRecord α))
    (h : extract_annotations env pr types true = .ok items) :
    ∀ it ∈ items, ¬(it.content = "" ∧ it.author = "") := by
  unfold extract_annotations at h
  split at h
  · exact absurd h (by simp)
  · exact plainPageLoop_nonempty h

/-- Witness for C9: the demo document (which contains a doubly-empty
annotation that gets dropped) yields records whose first entry is not
doubly empty. -/
theorem c9_witness : ¬(demoPlainHl.content = "" ∧ demoPlainHl.author = "") :=
  c9_drop_empty_no_blank_records demoPdf none ["highlight", "text"]
    [demoPlainHl, demoPlainText] (by decide)
    demoPlainHl (by simp)

/-! ## Claim C8 — error reporting of the exposed operations

The claim asserts that *every* exposed operation converts all four error
kinds into a returned message. The code does so for `NotFound` (in every
tool) and, in `read_pdf_text`, for `InvalidRange`/backend errors too; but
the `extract_annotations` tool body has no try/except, so the `ValueError`
raised by `parse_page_range` for a malformed or out-of-bounds page spec
escapes the tool function as an exception. -/

/-- **C8, counterexample.** Against the demo world (a valid, resolvable
one-page PDF), the `extract_annotations` tool called with the
out-of-bounds page spec `0-5` lets the `InvalidRange` error escape as an
exception (`Except.error`) instead of returning an error message. -/
theorem c8_counterexample :
    tool_extract_annotations demoToolEnv "doc.pdf" (some "0-5")
      "Highlight,Text" true = .error "Invalid page range: 0-5" := by
  decide

/-- **C8, amended.** `NotFound` and, in `read_pdf_text`, every backend or
range error are returned to the caller as messages — `read_pdf_text`
never lets an exception escape; but in the `extract_annotations` tool a
`parse_page_range` failure propagates out of the tool function as an
exception. -/
theorem c8_amended_error_reporting :
    (∀ (α : Type) (inst : LinearOrderedCommRing α) (env : ToolEnv α)
        (fp : String) (pr : Option String) (it : String) (de : Bool)
        (path : String) (doc : PdfEnv α) (e : String),
      find_file env.cfg env.fs fp = some path →
      env.docOf path = some doc →
      parse_page_range (doc.pypages.length : Int) pr = .error e →
      tool_extract_annotations env fp pr it de = .error e)
    ∧ (∀ (α : Type) (inst : LinearOrderedCommRing α) (env : ToolEnv α)
        (fp : String) (pr : Option String),
      ∃ r, tool_read_pdf_text env fp pr = .ok r)
    ∧ (∀ (α : Type) (inst : LinearOrderedCommRing α) (env : ToolEnv α)
        (fp : String) (pr : Option String)
        (path : String) (doc : PdfEnv α) (e : String),
      find_file env.cfg env.fs fp = some path →
      env.docOf path = some doc →
      parse_page_range (doc.plpages.length : Int) pr = .error e →
      tool_read_pdf_text env fp pr = .ok (.message ("Error: " ++ e))) := by
  refine ⟨?_, ?_, ?_⟩
  · intro α inst env fp pr it de path doc e hfind hdoc hparse
    unfold tool_extract_annotations
    simp only [hfind, hdoc]
    unfold extract_annotations
    simp only [hparse]
  · intro α inst env fp pr
    unfold tool_read_pdf_text
    cases hfind : find_file env.cfg env.fs fp with
    | none => simp only [hfind]; exact ⟨_, rfl⟩
    | some path =>
      simp only [hfind]
      cases hdoc : env.docOf path with
      | none => simp only [hdoc]; exact ⟨_, rfl⟩
      | some doc =>
        simp only [hdoc]
        cases hparse : parse_page_range (doc.plpages.length : Int) pr with
        | error e => simp only [hparse]; exact ⟨_, rfl⟩
        | ok idxs =>
          simp only [hparse]
          cases hpages : readPagesLoop doc idxs with
          | error e => simp only [hpages]; exact ⟨_, rfl⟩
          | ok pages => simp only [hpages]; exact ⟨_, rfl⟩
  · intro α inst env fp pr path doc e hfind hdoc hparse
    unfold tool_read_pdf_text
    simp only [hfind, hdoc, hparse]

/-- Witness for the amended C8: the same invalid spec `12` makes the
`extract_annotations` tool raise while `read_pdf_text` answers with an
`Error:` message. -/
theorem c8_amended_witness :
    tool_extract_annotations demoToolEnv "doc.pdf" (some "12")
      "Highlight,Text" true = .error "Page 12 out of range (1-1)" ∧
    tool_read_pdf_text demoToolEnv "doc.pdf" (some "12") =
      .ok (.message "Error: Page 12 out of range (1-1)") :=
  ⟨c8_amended_error_reporting.1 ℤ inferInstance demoToolEnv "doc.pdf"
      (some "12") "Highlight,Text" true "/docs/doc.pdf" demoPdf
      "Page 12 out of range (1-1)" (by decide) rfl (by decide),
   c8_amended_error_reporting.2.2 ℤ inferInstance demoToolEnv "doc.pdf"
      (some "12") "/docs/doc.pdf" demoPdf
      "Page 12 out of range (1-1)" (by decide) rfl (by decide)⟩

/-- Witness for C6: the concrete correlator example, obtained from the
claim's theorem. -/
theorem c6_witness :
    _text_from_words_grouped (⟨0, 0, 22, 5⟩ : BBox ℤ)
      [demoHello, demoWorld] = "Hello World" :=
  c6_fallback_correlator.2.2.2.1
